import Mathlib

/-
Verification of the pool-authority-server backend (src/server.js, two
variants: a Resend-based server and a Gmail/nodemailer-based server).
The JavaScript is shallowly embedded: strings are `List Char` / `String`,
JS regex-replace passes are explicit left-to-right scans, JS numbers are
exact rationals, JSON objects are association lists in insertion order,
and request handlers are pure functions returning `Except` (the error
branch models an HTTP error response produced before the external
provider is invoked).
-/

namespace PoolAuthority

/-- The character `{` (written via its code point). -/
def obr : Char := Char.ofNat 123

/-- The character `}` (written via its code point). -/
def cbr : Char := Char.ofNat 125

/-- JS `\w` word characters: ASCII letters, digits and underscore. -/
def isWordChar (c : Char) : Bool := c.isAlphanum || c == '_'

/-- A JSON-ish value stored in a merge-data mapping (`data[key]` in JS). -/
inductive Value where
  | vStr (s : String)
  | vBool (b : Bool)
  deriving DecidableEq, Repr

/-- JS truthiness of a value: empty string and `false` are falsy. -/
def truthy : Value → Bool
  | .vStr s => !s.isEmpty
  | .vBool b => b

/-- JS `String(v)` coercion used when a value is substituted into a template. -/
def valString : Value → String
  | .vStr s => s
  | .vBool b => if b then ("true") else ("false")

/-- The replacement text for `data[key] || ''` in the merge-tag pass. -/
def subOf (v : Value) : List Char := if truthy v then (valString v).toList else []

/-- A JS object, modelled as an association list in insertion order. -/
abbrev Data := List (String × Value)

/-- Property lookup `data[k]` (first entry with the key; JS objects have
unique keys, so association lists of interest have no duplicate keys). -/
def lookupA (k : String) : Data → Option Value
  | [] => none
  | (k', v) :: rest => if k' == k then some v else lookupA k rest

/-- Truthiness of `data[k]` where an absent key is `undefined`, hence falsy. -/
def truthyO : Option Value → Bool
  | some v => truthy v
  | none => false

/-- Strip `pat` from the start of `s`, returning the remainder when `pat`
occurs there. -/
def dropPfx? : List Char → List Char → Option (List Char)
  | [], s => some s
  | _ :: _, [] => none
  | p :: ps, c :: cs => if p == c then dropPfx? ps cs else none

/-- Does `pat` occur at the start of `s`? -/
def hasPfx (pat s : List Char) : Bool := (dropPfx? pat s).isSome

/-- Does `pat` occur anywhere in `s`? -/
def occursIn (pat : List Char) : List Char → Bool
  | [] => hasPfx pat []
  | c :: rest => hasPfx pat (c :: rest) || occursIn pat rest

/-- A matcher tries to recognise a regex match at the head of the string and
returns the replacement output together with the rest of the string after
the match. -/
abbrev Matcher := List Char → Option (List Char × List Char)

/-- One global-regex replacement scan, as the JS engine performs it: try a
match at each position from the left; on success emit the replacement and
resume after the match, otherwise emit one character and move on.  The fuel
argument (initially the string length) only serves termination; every step
consumes at least one character, so fuel never runs out. -/
def scanGo (m : Matcher) : Nat → List Char → List Char
  | _, [] => []
  | 0, c :: rest => c :: rest
  | fuel + 1, c :: rest =>
    match m (c :: rest) with
    | some (out, after) => out ++ scanGo m fuel after
    | none => c :: scanGo m fuel rest

/-- `String.prototype.replace` with a global regex described by `m`. -/
def scanRep (m : Matcher) (s : List Char) : List Char := scanGo m s.length s

/-- A matcher is consuming when every match eats at least one character. -/
def Consuming (m : Matcher) : Prop :=
  ∀ s out after, m s = some (out, after) → after.length < s.length

/-- The literal text `{{k}}` of a merge tag, as built by
`new RegExp('\\{\\{' + key + '\\}\\}', 'g')` for a key without regex
metacharacters. -/
def mkTag (k : String) : List Char := obr :: obr :: (k.toList ++ [cbr, cbr])

/-- Matcher for replacing the literal `pat` by `rep`. -/
def tagM (pat rep : List Char) : Matcher := fun s =>
  if pat.isEmpty then none
  else
    match dropPfx? pat s with
    | some after => some (rep, after)
    | none => none

/-- One iteration of the `Object.keys(data).forEach` merge-tag loop:
`result.replace(/\{\{key\}\}/g, data[key] || '')`. -/
def mergeOne (r : List Char) (kv : String × Value) : List Char :=
  scanRep (tagM (mkTag kv.1) (subOf kv.2)) r

/-- The merge-tag pass of `processTemplate`: one global replace per key of
`data`, in insertion order. -/
def mergeTags (data : Data) (t : List Char) : List Char := data.foldl mergeOne t

/-- The literal `{{#if ` opening of a conditional block. -/
def condOpen : List Char := obr :: obr :: '#' :: 'i' :: 'f' :: ' ' :: []

/-- The literal `}}` closing the condition key. -/
def close2 : List Char := [cbr, cbr]

/-- The literal `{{/if}}` end marker of a conditional block. -/
def condClose : List Char := obr :: obr :: '/' :: 'i' :: 'f' :: cbr :: cbr :: []

/-- Split at the first occurrence of `{{/if}}`: the lazy `([\s\S]*?)` of the
conditional regex takes everything up to the nearest end marker. -/
def findClose : List Char → Option (List Char × List Char)
  | [] => none
  | c :: rest =>
    match dropPfx? condClose (c :: rest) with
    | some after => some ([], after)
    | none => (findClose rest).map (fun p => (c :: p.1, p.2))

/-- Matcher for `/\{\{#if (\w+)\}\}([\s\S]*?)\{\{\/if\}\}/g`: the block is
replaced by its content when `data[condition]` is truthy, else by nothing. -/
def condM (data : Data) : Matcher := fun s =>
  match dropPfx? condOpen s with
  | none => none
  | some s₁ =>
    let k := s₁.takeWhile isWordChar
    if k.isEmpty then none
    else
      match dropPfx? close2 (s₁.dropWhile isWordChar) with
      | none => none
      | some s₃ =>
        match findClose s₃ with
        | some (content, after) =>
          some (if truthyO (lookupA (String.mk k) data) then content else [], after)
        | none => none

/-- The conditional-block pass of `processTemplate`. -/
def condPass (data : Data) (s : List Char) : List Char := scanRep (condM data) s

/-- The literal `**` bold marker. -/
def star2 : List Char := ['*', '*']

/-- Split at the nearest closing `**` reachable without crossing a newline:
the lazy `(.*?)` of the bold regex does not match `\n`. -/
def findBoldClose : List Char → Option (List Char × List Char)
  | [] => none
  | c :: rest =>
    match dropPfx? star2 (c :: rest) with
    | some after => some ([], after)
    | none =>
      if c == '\n' then none
      else (findBoldClose rest).map (fun p => (c :: p.1, p.2))

/-- Matcher for `/\*\*(.*?)\*\*/g` with replacement a strong tag around the
captured content. -/
def boldM : Matcher := fun s =>
  match dropPfx? star2 s with
  | none => none
  | some s₁ =>
    match findBoldClose s₁ with
    | some (content, after) =>
      some ("<strong>".toList ++ content ++ "</strong>".toList, after)
    | none => none

/-- The markdown-bold pass of `processTemplate`. -/
def boldPass (s : List Char) : List Char := scanRep boldM s

/-- The newline pass `result.replace` that turns each newline into `<br>`. -/
def newlinePass : List Char → List Char
  | [] => []
  | c :: rest => if c == '\n' then ("<br>").toList ++ newlinePass rest else c :: newlinePass rest

/-- `processTemplate(template, data)` from src/server.js: merge tags, then
conditional blocks, then bold markers, then newlines, in that order. -/
def processTemplate (template : List Char) (data : Data) : List Char :=
  newlinePass (boldPass (condPass data (mergeTags data template)))

/-- JS `x || d` for an optionally-present string `x`: the default is taken
when the value is absent (`undefined`) or empty (falsy). -/
def strOr (o : Option String) (d : String) : String :=
  match o with
  | none => d
  | some s => if s.isEmpty then d else s

/-- An optionally-present string read as a plain string (`undefined` prints
and concatenates as the empty string in the places the server uses it). -/
def optStr (o : Option String) : String := o.getD ("")

/-- The `companySettings` object sent by callers; every field is optional. -/
structure CompanySettings where
  companyName : Option String := none
  ownerName : Option String := none
  phone : Option String := none
  email : Option String := none
  address : Option String := none
  logoUrl : Option String := none
  primaryColor : Option String := none
  accentColor : Option String := none
  deriving DecidableEq, Repr

/-- Assigning `k := v` on a JS object: an existing key keeps its position and
gets the new value, a new key is appended. -/
def setKey : Data → String × Value → Data
  | [], kv => [kv]
  | (k', v') :: rest, kv =>
    if k' == kv.1 then (k', kv.2) :: rest else (k', v') :: setKey rest kv

/-- The object literal `{ ...base fields..., ...ext }`: spread entries
override colliding keys of the base. -/
def objMerge (base : Data) (ext : Data) : Data := ext.foldl setKey base

/-- First-some choice, used to state caller-over-default precedence. -/
def prefOr (a b : Option Value) : Option Value :=
  match a with
  | some v => some v
  | none => b

/-- The derived default entries of `mergeData` built by the send handlers of
the Resend server variant. -/
def baseMergeData (cs : Option CompanySettings) : Data :=
  [("company_name", .vStr (strOr (cs.bind CompanySettings.companyName) ("Pool Authority"))),
   ("owner_name", .vStr (optStr (cs.bind CompanySettings.ownerName))),
   ("company_phone", .vStr (optStr (cs.bind CompanySettings.phone))),
   ("company_email", .vStr (optStr (cs.bind CompanySettings.email)))]

/-- `mergeData` of `/send-weekly-update` and `/send-quote`: derived defaults
then `...data`. -/
def weeklyMergeData (cs : Option CompanySettings) (d : Data) : Data :=
  objMerge (baseMergeData cs) d

/-- The derived default entries of `/send-invoice`, which additionally carry
`payment_link: paymentLink || ''`. -/
def invoiceBaseData (cs : Option CompanySettings) (paymentLink : Option String) : Data :=
  baseMergeData cs ++ [("payment_link", .vStr (strOr paymentLink ("")))]

/-- `mergeData` of `/send-invoice`: derived defaults then `...data`. -/
def invoiceMergeData (cs : Option CompanySettings) (paymentLink : Option String)
    (d : Data) : Data :=
  objMerge (invoiceBaseData cs paymentLink) d

/-- `wrapInHtmlEmail(content, companySettings)` from src/server.js: the fixed
branded HTML document around the rendered content. -/
def wrapInHtmlEmail (content : String) (cs : Option CompanySettings) : String :=
  let primaryColor := strOr (cs.bind CompanySettings.primaryColor) ("#1e3a5f")
  let accentColor := strOr (cs.bind CompanySettings.accentColor) ("#5bb4d8")
  let logoUrl := optStr (cs.bind CompanySettings.logoUrl)
  "\n<!DOCTYPE html>\n<html>\n<head>\n  <meta charset=\"utf-8\">\n  <meta name=\"viewport\" content=\"width=device-width, initial-scale=1.0\">\n  <style>\n    body \x7b font-family: \x27Segoe UI\x27, Arial, sans-serif; line-height: 1.6; color: #333; margin: 0; padding: 0; background: #f5f5f5; \x7d\n    .container \x7b max-width: 600px; margin: 20px auto; background: white; border-radius: 12px; overflow: hidden; box-shadow: 0 2px 10px rgba(0,0,0,0.1); \x7d\n    .header \x7b background: linear-gradient(135deg, "
    ++ primaryColor ++ " 0%, " ++ accentColor
    ++ " 100%); color: white; padding: 30px; text-align: center; \x7d\n    .header h1 \x7b margin: 0; font-size: 24px; \x7d\n    .content \x7b padding: 30px; \x7d\n    .footer \x7b background: #f8f9fa; padding: 20px; text-align: center; font-size: 12px; color: #666; \x7d\n    .btn \x7b display: inline-block; padding: 12px 30px; background: "
    ++ primaryColor
    ++ "; color: white; text-decoration: none; border-radius: 6px; margin: 10px 0; \x7d\n  </style>\n</head>\n<body>\n  <div class=\"container\">\n    <div class=\"header\">\n      "
    ++ (if logoUrl.isEmpty then ("")
        else ("<img src=\"") ++ logoUrl ++ "\" alt=\"Logo\" style=\"max-height: 60px; margin-bottom: 10px;\">")
    ++ "\n      <h1>" ++ strOr (cs.bind CompanySettings.companyName) ("Pool Authority")
    ++ "</h1>\n    </div>\n    <div class=\"content\">\n      " ++ content
    ++ "\n    </div>\n    <div class=\"footer\">\n      "
    ++ optStr (cs.bind CompanySettings.companyName) ++ "<br>\n      "
    ++ optStr (cs.bind CompanySettings.address) ++ "<br>\n      "
    ++ optStr (cs.bind CompanySettings.phone) ++ " | "
    ++ optStr (cs.bind CompanySettings.email)
    ++ "\n    </div>\n  </div>\n</body>\n</html>"

/-- Process-start configuration of the Resend server variant, read from the
environment. -/
structure Config where
  resendApiKey : Option String := none
  gmailUser : Option String := none
  deriving DecidableEq, Repr

/-- `REPLY_TO_EMAIL`: the GMAIL_USER environment value, with the fixed fallback address jack@poolauthoritycny.com. -/
def replyToEmail (cfg : Config) : String :=
  strOr (cfg.gmailUser) ("jack@poolauthoritycny.com")

/-- `emailConfigured = !!RESEND_API_KEY` with
`RESEND_API_KEY = process.env.RESEND_API_KEY || ''`. -/
def emailConfigured (cfg : Config) : Bool := !(optStr (cfg.resendApiKey)).isEmpty

/-- An HTTP error response `res.status(status).json({ error })`. -/
structure ErrResp where
  status : Nat
  error : String
  deriving DecidableEq, Repr

/-- A success response `res.json({ success, message })`. -/
structure OkResp where
  success : Bool
  message : String
  deriving DecidableEq, Repr

/-- The payload of the one HTTP call `sendEmailWithResend` makes to the email
provider. -/
structure ResendCall where
  fromField : String
  toAddr : String
  replyTo : String
  subject : String
  html : String
  deriving DecidableEq, Repr

/-- The body of `sendEmailWithResend(to, subject, htmlContent, fromName)`. -/
def sendEmailWithResend (cfg : Config) (toAddr subject htmlContent fromName : String) :
    ResendCall :=
  { fromField := fromName ++ " <onboarding@resend.dev>"
    toAddr := toAddr
    replyTo := replyToEmail cfg
    subject := subject
    html := htmlContent }

/-- The fixed configuration error of every email endpoint of the Resend
variant. -/
def notConfiguredErr : ErrResp := ⟨400, "Email not configured. Set RESEND_API_KEY."⟩

/-- An email template `{ subject, body }` as supplied by the caller. -/
structure Template where
  subject : String
  body : String
  deriving DecidableEq, Repr

/-- The request body of the three templated send endpoints (`paymentLink` is
only read by `/send-invoice`). -/
structure SendReq where
  toAddr : Option String := none
  template : Template
  data : Option Data := none
  companySettings : Option CompanySettings := none
  paymentLink : Option String := none
  deriving DecidableEq, Repr

/-- Did a handler run reach the email provider? -/
def providerCalled (r : Except ErrResp (ResendCall × OkResp)) : Bool :=
  match r with
  | .ok _ => true
  | .error _ => false

/-- The `POST /send-weekly-update` handler (Resend variant). -/
def sendWeeklyUpdate (cfg : Config) (req : SendReq) :
    Except ErrResp (ResendCall × OkResp) :=
  if !emailConfigured cfg then .error notConfiguredErr
  else if (optStr (req.toAddr)).isEmpty then .error ⟨400, "Recipient email required"⟩
  else
    let mergeData := weeklyMergeData req.companySettings (req.data.getD [])
    let subject := String.mk (processTemplate req.template.subject.toList mergeData)
    let bodyHtml := wrapInHtmlEmail
      (String.mk (processTemplate req.template.body.toList mergeData)) req.companySettings
    .ok (sendEmailWithResend cfg (optStr (req.toAddr)) subject bodyHtml
          (strOr (req.companySettings.bind CompanySettings.companyName) ("Pool Authority")),
         ⟨true, "Weekly update sent successfully"⟩)

/-- The `POST /send-invoice` handler (Resend variant). -/
def sendInvoice (cfg : Config) (req : SendReq) :
    Except ErrResp (ResendCall × OkResp) :=
  if !emailConfigured cfg then .error notConfiguredErr
  else if (optStr (req.toAddr)).isEmpty then .error ⟨400, "Recipient email required"⟩
  else
    let mergeData := invoiceMergeData req.companySettings req.paymentLink (req.data.getD [])
    let subject := String.mk (processTemplate req.template.subject.toList mergeData)
    let bodyContent := String.mk (processTemplate req.template.body.toList mergeData)
    let bodyContent :=
      if (optStr (req.paymentLink)).isEmpty then bodyContent
      else bodyContent ++ "<br><br><a href=\"" ++ optStr (req.paymentLink)
        ++ "\" class=\"btn\">💳 Pay Now</a>"
    let bodyHtml := wrapInHtmlEmail bodyContent req.companySettings
    .ok (sendEmailWithResend cfg (optStr (req.toAddr)) subject bodyHtml
          (strOr (req.companySettings.bind CompanySettings.companyName) ("Pool Authority")),
         ⟨true, "Invoice sent successfully"⟩)

/-- The `POST /send-quote` handler (Resend variant). -/
def sendQuote (cfg : Config) (req : SendReq) :
    Except ErrResp (ResendCall × OkResp) :=
  if !emailConfigured cfg then .error notConfiguredErr
  else if (optStr (req.toAddr)).isEmpty then .error ⟨400, "Recipient email required"⟩
  else
    let mergeData := weeklyMergeData req.companySettings (req.data.getD [])
    let subject := String.mk (processTemplate req.template.subject.toList mergeData)
    let bodyHtml := wrapInHtmlEmail
      (String.mk (processTemplate req.template.body.toList mergeData)) req.companySettings
    .ok (sendEmailWithResend cfg (optStr (req.toAddr)) subject bodyHtml
          (strOr (req.companySettings.bind CompanySettings.companyName) ("Pool Authority")),
         ⟨true, "Quote sent successfully"⟩)

/-- The request body of the generic `POST /send-email` endpoint. -/
structure EmailReq where
  toAddr : Option String := none
  subject : Option String := none
  body : Option String := none
  companySettings : Option CompanySettings := none
  deriving DecidableEq, Repr

/-- The `POST /send-email` handler (Resend variant). -/
def sendEmailGeneric (cfg : Config) (req : EmailReq) :
    Except ErrResp (ResendCall × OkResp) :=
  if !emailConfigured cfg then .error notConfiguredErr
  else if (optStr (req.toAddr)).isEmpty || (optStr (req.subject)).isEmpty
      || (optStr (req.body)).isEmpty then
    .error ⟨400, "to, subject, and body are required"⟩
  else
    let bodyHtml := wrapInHtmlEmail (String.mk (newlinePass (optStr (req.body)).toList))
      req.companySettings
    .ok (sendEmailWithResend cfg (optStr (req.toAddr)) (optStr (req.subject)) bodyHtml
          (strOr (req.companySettings.bind CompanySettings.companyName) ("Pool Authority")),
         ⟨true, "Email sent successfully"⟩)

/-- The request body of `POST /test-email`. -/
structure TestReq where
  toAddr : Option String := none
  deriving DecidableEq, Repr

/-- The canned verification message of `/test-email`. -/
def testHtml : String :=
  "<h1>✅ Email is working!</h1><p>Your Pool Authority email configuration is correct.</p>"

/-- The `POST /test-email` handler (Resend variant): `to || REPLY_TO_EMAIL`. -/
def testEmail (cfg : Config) (req : TestReq) :
    Except ErrResp (ResendCall × OkResp) :=
  if !emailConfigured cfg then .error notConfiguredErr
  else
    let recipient := strOr (req.toAddr) (replyToEmail cfg)
    .ok (sendEmailWithResend cfg recipient ("Pool Authority - Email Test") testHtml
          ("Pool Authority"),
         ⟨true, "Test email sent!"⟩)

/-- Process-start configuration of the Gmail server variant. -/
structure GmailConfig where
  gmailUser : Option String := none
  gmailAppPassword : Option String := none
  deriving DecidableEq, Repr

/-- `GMAIL_USER = process.env.GMAIL_USER || ''` of the Gmail variant. -/
def gmailUserStr (c : GmailConfig) : String := optStr (c.gmailUser)

/-- The Gmail transporter exists only when both credentials are truthy. -/
def gmailConfigured (c : GmailConfig) : Bool :=
  !(gmailUserStr c).isEmpty && !(optStr (c.gmailAppPassword)).isEmpty

/-- The `mailOptions` passed to `transporter.sendMail`. -/
structure MailOptions where
  fromField : String
  toAddr : String
  subject : String
  html : String
  deriving DecidableEq, Repr

/-- The `POST /test-email` handler of the Gmail variant: recipient
`to || GMAIL_USER`, sender `GMAIL_USER`. -/
def gmailTestEmail (c : GmailConfig) (req : TestReq) :
    Except ErrResp (MailOptions × OkResp) :=
  if !gmailConfigured c then
    .error ⟨400, "Email not configured. Set GMAIL_USER and GMAIL_APP_PASSWORD."⟩
  else
    .ok ({ fromField := gmailUserStr c
           toAddr := strOr (req.toAddr) (gmailUserStr c)
           subject := "Pool Authority - Email Test"
           html := testHtml },
         ⟨true, "Test email sent!"⟩)

/-- The request body (plus origin header) of `POST /create-checkout-session`;
the JSON `amount` number is modelled as an exact rational. -/
structure CheckoutReq where
  amount : Option ℚ := none
  customerEmail : Option String := none
  description : Option String := none
  customerName : Option String := none
  metadata : Option (List (String × String)) := none
  originHeader : Option String := none
  deriving DecidableEq, Repr

/-- The `sessionConfig` object forwarded to the payment provider. -/
structure SessionConfig where
  currency : String
  productName : String
  productDescription : String
  unit_amount : ℤ
  quantity : Nat
  mode : String
  successUrl : String
  cancelUrl : String
  customerEmail : Option String
  metadata : List (String × String)
  deriving DecidableEq, Repr

/-- JS `Math.round`: round to the nearest integer, half towards +∞. -/
def jsRound (q : ℚ) : ℤ := ⌊q + 1 / 2⌋

/-- The `POST /create-checkout-session` handler up to the provider call: an
error response, or the session configuration it would send to the provider. -/
def createCheckoutSession (req : CheckoutReq) : Except ErrResp SessionConfig :=
  match req.amount with
  | none => .error ⟨400, "Invalid amount"⟩
  | some a =>
    if a ≤ 0 then .error ⟨400, "Invalid amount"⟩
    else
      .ok { currency := "usd"
            productName := strOr (req.description) ("Pool Service")
            productDescription := "Invoice for " ++ strOr (req.customerName) ("Customer")
            unit_amount := jsRound (a * 100)
            quantity := 1
            mode := "payment"
            successUrl := strOr (req.originHeader) ("http://localhost:3000") ++ "?payment=success"
            cancelUrl := strOr (req.originHeader) ("http://localhost:3000") ++ "?payment=cancelled"
            customerEmail :=
              match req.customerEmail with
              | some e => if e.isEmpty then none else some e
              | none => none
            metadata := req.metadata.getD [] }

/-- Did the checkout handler reach the payment provider? -/
def stripeInvoked (req : CheckoutReq) : Bool :=
  match createCheckoutSession req with
  | .ok _ => true
  | .error _ => false

/-! ### Basic facts about the string-scanning primitives -/

theorem dropPfx?_append (p t : List Char) : dropPfx? p (p ++ t) = some t := by
  induction p with
  | nil => rfl
  | cons a l ih => simp [dropPfx?, ih]

theorem dropPfx?_length {p s t : List Char} (h : dropPfx? p s = some t) :
    p.length + t.length = s.length := by
  induction p generalizing s with
  | nil =>
    simp only [dropPfx?, Option.some.injEq] at h
    simp [h]
  | cons a l ih =>
    cases s with
    | nil => simp [dropPfx?] at h
    | cons c cs =>
      simp only [dropPfx?] at h
      by_cases hac : a == c
      · rw [if_pos hac] at h
        have := ih h
        simp [List.length_cons]
        omega
      · rw [if_neg hac] at h
        exact absurd h (by simp)

theorem hasPfx_eq_false {pat s : List Char} (h : hasPfx pat s = false) :
    dropPfx? pat s = none := by
  cases hd : dropPfx? pat s with
  | none => rfl
  | some t => rw [hasPfx, hd] at h; exact absurd h (by simp)

theorem occursIn_drop {pat s : List Char} (h : occursIn pat s = false) :
    ∀ i, hasPfx pat (s.drop i) = false := by
  induction s with
  | nil =>
    intro i
    simpa [occursIn, List.drop_nil] using h
  | cons c rest ih =>
    intro i
    simp only [occursIn, Bool.or_eq_false_iff] at h
    cases i with
    | zero => exact h.1
    | succ j => simpa [List.drop_succ_cons] using ih h.2 j

theorem scanGo_nil (m : Matcher) (f : Nat) : scanGo m f [] = [] := by
  cases f <;> rfl

theorem scanGo_fuelCongr {m : Matcher} (hm : Consuming m) :
    ∀ f₁ f₂ : Nat, ∀ s : List Char, s.length ≤ f₁ → s.length ≤ f₂ →
      scanGo m f₁ s = scanGo m f₂ s := by
  intro f₁
  induction f₁ with
  | zero =>
    intro f₂ s h₁ _
    have hs : s = [] := List.eq_nil_of_length_eq_zero (Nat.le_zero.mp h₁)
    subst hs
    simp [scanGo_nil]
  | succ f ih =>
    intro f₂ s h₁ h₂
    cases s with
    | nil => simp [scanGo_nil]
    | cons c rest =>
      obtain ⟨g, rfl⟩ : ∃ g, f₂ = g + 1 := ⟨f₂ - 1, by simp at h₂; omega⟩
      cases hmc : m (c :: rest) with
      | some p =>
        obtain ⟨out, after⟩ := p
        have hlt := hm _ _ _ hmc
        simp only [scanGo, hmc]
        rw [ih g after (by simp at h₁ hlt ⊢; omega) (by simp at h₂ hlt ⊢; omega)]
      | none =>
        simp only [scanGo, hmc]
        rw [ih g rest (by simp at h₁ ⊢; omega) (by simp at h₂ ⊢; omega)]

theorem scanRep_cons_none {m : Matcher} {c : Char} {rest : List Char}
    (h : m (c :: rest) = none) : scanRep m (c :: rest) = c :: scanRep m rest := by
  simp only [scanRep, List.length_cons, scanGo, h]

theorem scanRep_match {m : Matcher} (hm : Consuming m) {s out after : List Char}
    (h : m s = some (out, after)) : scanRep m s = out ++ scanRep m after := by
  cases s with
  | nil => exact absurd (hm _ _ _ h) (by simp)
  | cons c rest =>
    have hlt := hm _ _ _ h
    simp only [scanRep, List.length_cons, scanGo, h]
    congr 1
    exact scanGo_fuelCongr hm rest.length after.length after (by simp at hlt; omega) le_rfl

theorem scanRep_id {m : Matcher} {s : List Char}
    (h : ∀ i, i < s.length → m (s.drop i) = none) : scanRep m s = s := by
  induction s with
  | nil => rfl
  | cons c rest ih =>
    rw [scanRep_cons_none (by simpa using h 0 (by simp))]
    rw [ih (fun i hi => by simpa [List.drop_succ_cons] using h (i + 1) (by simp; omega))]

theorem scanRep_append_match {m : Matcher} (hm : Consuming m) :
    ∀ pre : List Char, ∀ {s₀ out after : List Char},
      m s₀ = some (out, after) →
      (∀ i, i < pre.length → m ((pre ++ s₀).drop i) = none) →
      scanRep m (pre ++ s₀) = pre ++ (out ++ scanRep m after) := by
  intro pre
  induction pre with
  | nil =>
    intro s₀ out after h _
    simpa using scanRep_match hm h
  | cons c pre' ih =>
    intro s₀ out after h h1
    have h0 : m (c :: (pre' ++ s₀)) = none := by simpa using h1 0 (by simp)
    rw [List.cons_append, scanRep_cons_none h0,
      ih h (fun i hi => by simpa [List.drop_succ_cons] using h1 (i + 1) (by simp; omega))]
    simp

/-! ### The three matchers consume at least one character per match -/

theorem dropWhile_len_le (p : Char → Bool) :
    ∀ l : List Char, (l.dropWhile p).length ≤ l.length := by
  intro l
  induction l with
  | nil => simp
  | cons a t ih =>
    by_cases ha : p a = true
    · rw [List.dropWhile_cons_of_pos ha]
      simp only [List.length_cons]
      omega
    · rw [List.dropWhile_cons_of_neg (by simpa using ha)]

theorem tagM_consuming (pat rep : List Char) : Consuming (tagM pat rep) := by
  intro s out after h
  simp only [tagM] at h
  by_cases hp : pat.isEmpty = true
  · simp [hp] at h
  · simp only [hp] at h
    cases hd : dropPfx? pat s with
    | none => simp [hd] at h
    | some aft =>
      simp only [hd, Option.some.injEq, Prod.mk.injEq] at h
      obtain ⟨-, rfl⟩ := h
      have hl := dropPfx?_length hd
      have hne : pat.length ≠ 0 := by
        cases pat with
        | nil => simp at hp
        | cons a l => simp
      omega

theorem findClose_length :
    ∀ {t content after : List Char}, findClose t = some (content, after) →
      content.length + condClose.length + after.length = t.length := by
  intro t
  induction t with
  | nil => intro content after h; simp [findClose] at h
  | cons c rest ih =>
    intro content after h
    cases hd : dropPfx? condClose (c :: rest) with
    | some aft =>
      simp only [findClose, hd, Option.some.injEq, Prod.mk.injEq] at h
      obtain ⟨h1, h2⟩ := h
      have hl := dropPfx?_length hd
      subst h2
      simp only [List.length_cons] at hl
      simp only [← h1, List.length_nil, List.length_cons]
      omega
    | none =>
      simp only [findClose, hd, Option.map_eq_some'] at h
      obtain ⟨p, hp, hfp⟩ := h
      obtain ⟨pc, pa⟩ := p
      simp only [Prod.mk.injEq] at hfp
      obtain ⟨h1, h2⟩ := hfp
      have := ih hp
      subst h2
      simp only [← h1, List.length_cons]
      omega

theorem condM_consuming (d : Data) : Consuming (condM d) := by
  intro s out after h
  simp only [condM] at h
  cases h1 : dropPfx? condOpen s with
  | none => simp [h1] at h
  | some s₁ =>
    simp only [h1] at h
    by_cases hk : (s₁.takeWhile isWordChar).isEmpty = true
    · simp [hk] at h
    · simp only [hk] at h
      cases h2 : dropPfx? close2 (s₁.dropWhile isWordChar) with
      | none => simp [h2] at h
      | some s₃ =>
        simp only [h2] at h
        cases h3 : findClose s₃ with
        | none => simp [h3] at h
        | some p =>
          obtain ⟨content, aft⟩ := p
          simp only [h3, Option.some.injEq, Prod.mk.injEq] at h
          obtain ⟨-, rfl⟩ := h
          have l1 := dropPfx?_length h1
          have l2 := dropPfx?_length h2
          have l3 := findClose_length h3
          have l4 : (s₁.dropWhile isWordChar).length ≤ s₁.length :=
            dropWhile_len_le _ _
          have e1 : condOpen.length = 6 := rfl
          have e2 : close2.length = 2 := rfl
          have e3 : condClose.length = 7 := rfl
          omega

theorem findBoldClose_length :
    ∀ {t content after : List Char}, findBoldClose t = some (content, after) →
      content.length + star2.length + after.length = t.length := by
  intro t
  induction t with
  | nil => intro content after h; simp [findBoldClose] at h
  | cons c rest ih =>
    intro content after h
    cases hd : dropPfx? star2 (c :: rest) with
    | some aft =>
      simp only [findBoldClose, hd, Option.some.injEq, Prod.mk.injEq] at h
      obtain ⟨h1, h2⟩ := h
      have hl := dropPfx?_length hd
      subst h2
      simp only [List.length_cons] at hl
      simp only [← h1, List.length_nil, List.length_cons]
      omega
    | none =>
      simp only [findBoldClose, hd] at h
      by_cases hn : (c == '\n') = true
      · simp [hn] at h
      · simp only [hn, Option.map_eq_some'] at h
        simp only [Bool.false_eq_true, if_false, Option.map_eq_some'] at h
        obtain ⟨p, hp, hfp⟩ := h
        obtain ⟨pc, pa⟩ := p
        simp only [Prod.mk.injEq] at hfp
        obtain ⟨h1, h2⟩ := hfp
        have := ih hp
        subst h2
        simp only [← h1, List.length_cons]
        omega

theorem boldM_consuming : Consuming boldM := by
  intro s out after h
  simp only [boldM] at h
  cases h1 : dropPfx? star2 s with
  | none => simp [h1] at h
  | some s₁ =>
    simp only [h1] at h
    cases h2 : findBoldClose s₁ with
    | none => simp [h2] at h
    | some p =>
      obtain ⟨content, aft⟩ := p
      simp only [h2, Option.some.injEq, Prod.mk.injEq] at h
      obtain ⟨-, rfl⟩ := h
      have l1 := dropPfx?_length h1
      have l2 := findBoldClose_length h2
      have e1 : star2.length = 2 := rfl
      omega

/-! ### Evaluating the matchers on structured inputs -/

theorem takeWhile_append_all {p : Char → Bool} {l₁ : List Char}
    (h : ∀ c ∈ l₁, p c = true) (l₂ : List Char) :
    (l₁ ++ l₂).takeWhile p = l₁ ++ l₂.takeWhile p := by
  induction l₁ with
  | nil => simp
  | cons a l ih =>
    have ha := h a (by simp)
    simp [List.takeWhile_cons, ha, ih (fun c hc => h c (by simp [hc]))]

theorem dropWhile_append_all {p : Char → Bool} {l₁ : List Char}
    (h : ∀ c ∈ l₁, p c = true) (l₂ : List Char) :
    (l₁ ++ l₂).dropWhile p = l₂.dropWhile p := by
  induction l₁ with
  | nil => simp
  | cons a l ih =>
    have ha := h a (by simp)
    simp [List.dropWhile_cons, ha, ih (fun c hc => h c (by simp [hc]))]

theorem isWordChar_cbr : isWordChar cbr = false := by decide

theorem takeWhile_close2 (t : List Char) :
    (close2 ++ t).takeWhile isWordChar = [] := by
  rw [show close2 ++ t = cbr :: cbr :: t from rfl]
  simp [List.takeWhile_cons, isWordChar_cbr]

theorem dropWhile_close2 (t : List Char) :
    (close2 ++ t).dropWhile isWordChar = close2 ++ t := by
  rw [show close2 ++ t = cbr :: cbr :: t from rfl]
  simp [List.dropWhile_cons, isWordChar_cbr]

theorem stringMk_toList (k : String) : String.mk k.toList = k := rfl

theorem findClose_self (post : List Char) : findClose (condClose ++ post) = some ([], post) := by
  rw [show condClose ++ post = obr :: obr :: '/' :: 'i' :: 'f' :: cbr :: cbr :: post from rfl]
  simp only [findClose]
  have hx : dropPfx? condClose (obr :: obr :: '/' :: 'i' :: 'f' :: cbr :: cbr :: post)
      = some post := dropPfx?_append condClose post
  rw [hx]

theorem findClose_spec : ∀ content post : List Char,
    (∀ i, i < content.length → hasPfx condClose ((content ++ (condClose ++ post)).drop i) = false) →
    findClose (content ++ (condClose ++ post)) = some (content, post) := by
  intro content
  induction content with
  | nil => intro post h; simpa using findClose_self post
  | cons c ct ih =>
    intro post h
    have h0 : dropPfx? condClose (c :: (ct ++ (condClose ++ post))) = none := by
      apply hasPfx_eq_false
      simpa using h 0 (by simp)
    rw [List.cons_append]
    simp only [findClose, h0]
    rw [ih post (fun i hi => by
      simpa [List.drop_succ_cons] using h (i + 1) (by simp; omega))]
    rfl

theorem findBoldClose_self (post : List Char) :
    findBoldClose (star2 ++ post) = some ([], post) := by
  rw [show star2 ++ post = '*' :: '*' :: post from rfl]
  simp only [findBoldClose]
  have hx : dropPfx? star2 ('*' :: '*' :: post) = some post := dropPfx?_append star2 post
  rw [hx]

theorem findBoldClose_spec : ∀ x post : List Char,
    (∀ c ∈ x, (c == '\n') = false) →
    (∀ i, i < x.length → hasPfx star2 ((x ++ (star2 ++ post)).drop i) = false) →
    findBoldClose (x ++ (star2 ++ post)) = some (x, post) := by
  intro x
  induction x with
  | nil => intro post _ _; simpa using findBoldClose_self post
  | cons c ct ih =>
    intro post hnl h
    have h0 : dropPfx? star2 (c :: (ct ++ (star2 ++ post))) = none := by
      apply hasPfx_eq_false
      simpa using h 0 (by simp)
    have hc : (c == '\n') = false := hnl c (by simp)
    rw [List.cons_append]
    simp only [findBoldClose, h0, hc]
    rw [ih post (fun a ha => hnl a (by simp [ha])) (fun i hi => by
      simpa [List.drop_succ_cons] using h (i + 1) (by simp; omega))]
    rfl

theorem tagM_eval (pat rep rest : List Char) (hp : pat.isEmpty = false) :
    tagM pat rep (pat ++ rest) = some (rep, rest) := by
  simp [tagM, hp, dropPfx?_append]

theorem tagM_eq_none {pat s : List Char} (rep : List Char) (h : hasPfx pat s = false) :
    tagM pat rep s = none := by
  by_cases hp : pat.isEmpty = true
  · simp [tagM, hp]
  · simp [tagM, hp, hasPfx_eq_false h]

theorem mkTag_isEmpty (k : String) : (mkTag k).isEmpty = false := rfl

theorem condM_eval (d : Data) (k : String) (content post : List Char)
    (hk : k.toList ≠ [])
    (hw : ∀ c ∈ k.toList, isWordChar c = true)
    (hcl : ∀ i, i < content.length →
      hasPfx condClose ((content ++ (condClose ++ post)).drop i) = false) :
    condM d (condOpen ++ (k.toList ++ (close2 ++ (content ++ (condClose ++ post)))))
      = some (if truthyO (lookupA k d) then content else [], post) := by
  have htw : (k.toList ++ (close2 ++ (content ++ (condClose ++ post)))).takeWhile isWordChar
      = k.toList := by
    rw [takeWhile_append_all hw, takeWhile_close2, List.append_nil]
  have hdw : (k.toList ++ (close2 ++ (content ++ (condClose ++ post)))).dropWhile isWordChar
      = close2 ++ (content ++ (condClose ++ post)) := by
    rw [dropWhile_append_all hw, dropWhile_close2]
  have hke : (k.toList).isEmpty = false := by
    cases hkl : k.toList with
    | nil => exact absurd hkl hk
    | cons a l => rfl
  simp only [condM, dropPfx?_append, htw, hdw, hke, stringMk_toList,
    findClose_spec content post hcl, Bool.false_eq_true, if_false]

theorem condM_eq_none (d : Data) {s : List Char} (h : hasPfx condOpen s = false) :
    condM d s = none := by
  simp [condM, hasPfx_eq_false h]

theorem boldM_eval (x post : List Char)
    (hnl : ∀ c ∈ x, (c == '\n') = false)
    (h2 : ∀ i, i < x.length → hasPfx star2 ((x ++ (star2 ++ post)).drop i) = false) :
    boldM (star2 ++ (x ++ (star2 ++ post)))
      = some ("<strong>".toList ++ x ++ "</strong>".toList, post) := by
  simp only [boldM, dropPfx?_append, findBoldClose_spec x post hnl h2]

theorem boldM_eq_none {s : List Char} (h : hasPfx star2 s = false) : boldM s = none := by
  simp [boldM, hasPfx_eq_false h]

/-! ### Identity behaviour of the passes on tag-free input -/

theorem mergeOne_id {t : List Char} {kv : String × Value}
    (h : occursIn (mkTag kv.1) t = false) : mergeOne t kv = t := by
  apply scanRep_id
  intro i _
  exact tagM_eq_none _ (occursIn_drop h i)

theorem mergeTags_id : ∀ {d : Data} {t : List Char},
    (∀ kv ∈ d, occursIn (mkTag kv.1) t = false) → mergeTags d t = t := by
  intro d
  induction d with
  | nil => intro t _; rfl
  | cons kv rest ih =>
    intro t h
    show List.foldl mergeOne (mergeOne t kv) rest = t
    rw [mergeOne_id (h kv (by simp))]
    exact ih (fun a ha => h a (by simp [ha]))

theorem condPass_id {d : Data} {s : List Char} (h : occursIn condOpen s = false) :
    condPass d s = s := by
  apply scanRep_id
  intro i _
  exact condM_eq_none d (occursIn_drop h i)

/-! ### Shapes of templates used in the claims -/

/-- `pre ++ "{{k}}" ++ post`, the shape of a template around one merge tag. -/
def tagTemplate (pre : List Char) (k : String) (post : List Char) : List Char :=
  pre ++ (mkTag k ++ post)

/-- `pre ++ "{{#if k}}" ++ content ++ "{{/if}}" ++ post`, the shape of a
template around one conditional block. -/
def condTemplate (pre : List Char) (k : String) (content post : List Char) : List Char :=
  pre ++ (condOpen ++ (k.toList ++ (close2 ++ (content ++ (condClose ++ post)))))

/-- `pre ++ "**" ++ x ++ "**" ++ post`, the shape of a template around one
bold pair. -/
def boldTemplate (pre x post : List Char) : List Char :=
  pre ++ (star2 ++ (x ++ (star2 ++ post)))

/-! ### Claim theorems -/

/-- C1, counterexample: the claim says an occurrence of a merge tag whose key
is absent from the data mapping is replaced by the empty string; the code
leaves such an occurrence unchanged.  Rendering a template holding only the
tag with key missing from an empty data mapping returns the template with
the tag still in place, not the claimed text with the tag erased. -/
theorem C1_absent_key_counterexample :
    processTemplate ("Hi \x7b\x7bmissing\x7d\x7d").toList [] = ("Hi \x7b\x7bmissing\x7d\x7d").toList
    ∧ processTemplate ("Hi \x7b\x7bmissing\x7d\x7d").toList [] ≠ ("Hi ").toList := by
  exact ⟨by decide, by decide⟩

/-- C1, amended: for a key present in the data mapping, each occurrence of
its merge tag (taken leftmost, past text where the tag does not start) is
replaced by the value of the key when the value is truthy and by the empty string
when it is falsy; occurrences of tags whose key is absent from the data
mapping are left unchanged (a data mapping none of whose tags occur in the
template leaves the template unchanged, absent-key tags included). -/
theorem C1_merge_tags_amended :
    (∀ (k : String) (v : Value) (pre post : List Char),
      (∀ i, i < pre.length → hasPfx (mkTag k) ((tagTemplate pre k post).drop i) = false) →
      mergeTags [(k, v)] (tagTemplate pre k post)
        = pre ++ ((if truthy v then (valString v).toList else []) ++ mergeTags [(k, v)] post))
    ∧ (∀ (d : Data) (t : List Char),
        (∀ kv ∈ d, occursIn (mkTag kv.1) t = false) → mergeTags d t = t) := by
  constructor
  · intro k v pre post h1
    show scanRep (tagM (mkTag k) (subOf v)) (pre ++ (mkTag k ++ post))
      = pre ++ (subOf v ++ scanRep (tagM (mkTag k) (subOf v)) post)
    exact scanRep_append_match (tagM_consuming _ _) pre
      (tagM_eval (mkTag k) (subOf v) post (mkTag_isEmpty k))
      (fun i hi => tagM_eq_none _ (h1 i hi))
  · exact fun d t h => mergeTags_id h

/-- C1 witness: instantiating the amended statement replaces a present truthy
key, and an empty data mapping leaves an absent-key tag in place. -/
theorem C1_merge_tags_amended_witness :
    mergeTags [("name", Value.vStr ("Sam"))] (tagTemplate ("Hi ").toList ("name") []) = ("Hi Sam").toList
    ∧ mergeTags [] ("Hi \x7b\x7bmissing\x7d\x7d").toList = ("Hi \x7b\x7bmissing\x7d\x7d").toList := by
  constructor
  · have h := C1_merge_tags_amended.1 ("name") (Value.vStr ("Sam")) ("Hi ").toList []
      (by decide)
    revert h
    decide
  · exact C1_merge_tags_amended.2 [] ("Hi \x7b\x7bmissing\x7d\x7d").toList (by decide)

/-- C2: a conditional block `\x7b\x7b#if k\x7d\x7d...\x7b\x7b/if\x7d\x7d` whose
open marker is the leftmost match and whose content reaches the nearest end
marker is replaced by its content when `data[k]` is truthy and by the empty
string when it is falsy; in particular the two renderings from the spec of
`Hello \x7b\x7bname\x7d\x7d, \x7b\x7b#if urgent\x7d\x7dcall now!\x7b\x7b/if\x7d\x7d`
come out as stated. -/
theorem C2_conditional_blocks :
    (∀ (d : Data) (pre : List Char) (k : String) (content post : List Char),
      k.toList ≠ [] →
      (∀ c ∈ k.toList, isWordChar c = true) →
      (∀ i, i < pre.length → condM d ((condTemplate pre k content post).drop i) = none) →
      (∀ i, i < content.length →
        hasPfx condClose ((content ++ (condClose ++ post)).drop i) = false) →
      condPass d (condTemplate pre k content post)
        = pre ++ ((if truthyO (lookupA k d) then content else []) ++ condPass d post))
    ∧ processTemplate ("Hello \x7b\x7bname\x7d\x7d, \x7b\x7b#if urgent\x7d\x7dcall now!\x7b\x7b/if\x7d\x7d").toList
        [("name", .vStr ("Sam")), ("urgent", .vBool true)] = ("Hello Sam, call now!").toList
    ∧ processTemplate ("Hello \x7b\x7bname\x7d\x7d, \x7b\x7b#if urgent\x7d\x7dcall now!\x7b\x7b/if\x7d\x7d").toList
        [("name", .vStr ("Sam")), ("urgent", .vBool false)] = ("Hello Sam, ").toList := by
    refine ⟨?_, by decide, by decide⟩
    intro d pre k content post hk hw h1 hcl
    exact scanRep_append_match (condM_consuming d) pre
      (condM_eval d k content post hk hw hcl) h1

/-- C2 witness: the general conditional statement instantiated at concrete
truthy data. -/
theorem C2_conditional_blocks_witness :
    condPass [("urgent", Value.vBool true)]
      (condTemplate ("A ").toList ("urgent") ("call now!").toList []) = ("A call now!").toList := by
  have h := C2_conditional_blocks.1 [("urgent", Value.vBool true)] ("A ").toList ("urgent")
    ("call now!").toList [] (by decide) (by decide) (by decide) (by decide)
  revert h
  decide

/-- C7: a well-formed bold pair (leftmost opening marker, content free of
newlines up to the nearest closing marker) becomes a strong tag around its
content; and the pass order is conditionals, then bold, then newlines: a pair
split by a newline is not converted even though the newline later becomes a
break tag, and a pair completed only by discarding a falsy conditional block
is not converted either. -/
theorem C7_bold_conversion :
    (∀ pre x post : List Char,
      (∀ c ∈ x, (c == '\n') = false) →
      (∀ i, i < pre.length → boldM ((boldTemplate pre x post).drop i) = none) →
      (∀ i, i < x.length → hasPfx star2 ((x ++ (star2 ++ post)).drop i) = false) →
      boldPass (boldTemplate pre x post)
        = pre ++ (("<strong>".toList ++ x ++ "</strong>".toList) ++ boldPass post))
    ∧ processTemplate ("**a\nb**").toList [] = ("**a<br>b**").toList
    ∧ processTemplate ("**\x7b\x7b#if k\x7d\x7dx**\x7b\x7b/if\x7d\x7d").toList
        [("k", .vBool false)] = ("**").toList := by
  refine ⟨?_, by decide, by decide⟩
  intro pre x post hnl h1 h2
  exact scanRep_append_match boldM_consuming pre (boldM_eval x post hnl h2) h1

/-- C7 witness: the general bold statement instantiated at a concrete pair. -/
theorem C7_bold_conversion_witness :
    boldPass (boldTemplate ("a ").toList ("hot").toList (" b").toList)
      = ("a <strong>hot</strong> b").toList := by
  have h := C7_bold_conversion.1 ("a ").toList ("hot").toList (" b").toList
    (by decide) (by decide) (by decide)
  revert h
  decide

/-- C8: a template in which no merge tag of the data mapping and no
conditional opening occurs is returned unchanged except for the bold and
newline conversions. -/
theorem C8_plain_template :
    ∀ (d : Data) (t : List Char),
      (∀ kv ∈ d, occursIn (mkTag kv.1) t = false) →
      occursIn condOpen t = false →
      processTemplate t d = newlinePass (boldPass t) := by
  intro d t hm hc
  show newlinePass (boldPass (condPass d (mergeTags d t))) = newlinePass (boldPass t)
  rw [mergeTags_id hm, condPass_id hc]

/-- C8 witness: a tag-free template under a nonempty data mapping only gets
bold and newline conversion. -/
theorem C8_plain_template_witness :
    processTemplate ("Hi **y**\nz").toList [("name", Value.vStr ("Sam"))]
      = ("Hi <strong>y</strong><br>z").toList := by
  have h := C8_plain_template [("name", Value.vStr ("Sam"))] ("Hi **y**\nz").toList
    (by decide) (by decide)
  revert h
  decide

theorem jsRound_near (q : ℚ) : |(jsRound q : ℚ) - q| ≤ 1 / 2 := by
  rw [jsRound, abs_le]
  constructor
  · have h := Int.lt_floor_add_one (q + 1 / 2)
    linarith
  · have h := Int.floor_le (q + 1 / 2)
    linarith

/-- C3: for a positive amount the checkout handler succeeds and the
`unit_amount` it sends is `Math.round(amount * 100)`, an integer within one
half of `amount × 100`; in particular amount `49.99` yields `4999` minor
units. -/
theorem C3_minor_units :
    (∀ (req : CheckoutReq) (a : ℚ), req.amount = some a → 0 < a →
      ∃ s, createCheckoutSession req = .ok s ∧ s.unit_amount = jsRound (a * 100)
        ∧ |(s.unit_amount : ℚ) - a * 100| ≤ 1 / 2)
    ∧ (∀ req : CheckoutReq, req.amount = some (4999 / 100 : ℚ) →
      ∃ s, createCheckoutSession req = .ok s ∧ s.unit_amount = 4999) := by
  constructor
  · intro req a ha hpos
    simp only [createCheckoutSession, ha, if_neg (not_le.mpr hpos)]
    exact ⟨_, rfl, rfl, jsRound_near (a * 100)⟩
  · intro req ha
    simp only [createCheckoutSession, ha, if_neg (show ¬((4999 : ℚ) / 100 ≤ 0) by norm_num)]
    refine ⟨_, rfl, ?_⟩
    show jsRound ((4999 / 100 : ℚ) * 100) = 4999
    rw [jsRound, show ((4999 : ℚ) / 100 * 100 + 1 / 2) = 9999 / 2 by norm_num]
    have h1 : ((4999 : ℤ) : ℚ) ≤ 9999 / 2 := by norm_num
    have h2 : (9999 : ℚ) / 2 < (4999 : ℤ) + 1 := by norm_num
    exact Int.floor_eq_iff.mpr ⟨h1, h2⟩


/-- C3 witness: the theorem applied to a concrete request with amount 49.99. -/
theorem C3_minor_units_witness :
    ∃ s, createCheckoutSession { amount := some (4999 / 100 : ℚ) } = .ok s
      ∧ s.unit_amount = 4999 :=
  C3_minor_units.2 { amount := some (4999 / 100 : ℚ) } rfl

/-- C4: when the amount is absent, zero or negative, the checkout handler
returns the 400 "Invalid amount" error and the payment provider is not
invoked; the provider is reached exactly when the amount is a positive
number. -/
theorem C4_invalid_amount :
    ∀ req : CheckoutReq,
      ((req.amount = none ∨ ∃ a : ℚ, req.amount = some a ∧ a ≤ 0) →
        createCheckoutSession req = .error ⟨400, "Invalid amount"⟩
          ∧ stripeInvoked req = false)
      ∧ (stripeInvoked req = true ↔ ∃ a : ℚ, req.amount = some a ∧ 0 < a) := by
  intro req
  cases ha : req.amount with
  | none =>
    constructor
    · intro _
      exact ⟨by simp only [createCheckoutSession, ha],
        by simp only [stripeInvoked, createCheckoutSession, ha]⟩
    · simp only [stripeInvoked, createCheckoutSession, ha]
      simp
  | some a =>
    by_cases hle : a ≤ 0
    · constructor
      · intro _
        exact ⟨by simp only [createCheckoutSession, ha, if_pos hle],
          by simp only [stripeInvoked, createCheckoutSession, ha, if_pos hle]⟩
      · simp only [stripeInvoked, createCheckoutSession, ha, if_pos hle]
        constructor
        · intro h
          exact absurd h (by simp)
        · rintro ⟨b, hb, hb0⟩
          rw [Option.some.injEq] at hb
          subst hb
          exact absurd hle (not_le.mpr hb0)
    · constructor
      · rintro (h | ⟨b, hb, hb0⟩)
        · exact absurd h (by simp)
        · rw [Option.some.injEq] at hb
          subst hb
          exact absurd hb0 hle
      · simp only [stripeInvoked, createCheckoutSession, ha, if_neg hle]
        constructor
        · intro _
          exact ⟨a, rfl, not_le.mp hle⟩
        · intro _
          trivial

/-- C4 witness: a request with a negative amount is rejected with the 400
error and the provider is not reached. -/
theorem C4_invalid_amount_witness :
    createCheckoutSession { amount := some (-5 : ℚ) } = .error ⟨400, "Invalid amount"⟩
      ∧ stripeInvoked { amount := some (-5 : ℚ) } = false :=
  (C4_invalid_amount { amount := some (-5 : ℚ) }).1
    (Or.inr ⟨-5, rfl, by norm_num⟩)

theorem emptyStr_isEmpty : ("" : String).isEmpty = true := rfl

/-- C5: on every send endpoint a missing `to` yields a 400-class error without
the provider being invoked; on the generic endpoint a missing subject or body
does the same. -/
theorem C5_missing_recipient :
    ∀ (cfg : Config) (r1 r2 r3 : SendReq) (r4 : EmailReq),
      (r1.toAddr = none →
        ∃ e, sendWeeklyUpdate cfg r1 = .error e ∧ e.status = 400
          ∧ providerCalled (sendWeeklyUpdate cfg r1) = false)
      ∧ (r2.toAddr = none →
        ∃ e, sendInvoice cfg r2 = .error e ∧ e.status = 400
          ∧ providerCalled (sendInvoice cfg r2) = false)
      ∧ (r3.toAddr = none →
        ∃ e, sendQuote cfg r3 = .error e ∧ e.status = 400
          ∧ providerCalled (sendQuote cfg r3) = false)
      ∧ (r4.toAddr = none ∨ r4.subject = none ∨ r4.body = none →
        ∃ e, sendEmailGeneric cfg r4 = .error e ∧ e.status = 400
          ∧ providerCalled (sendEmailGeneric cfg r4) = false) := by
  intro cfg r1 r2 r3 r4
  by_cases hc : emailConfigured cfg = true
  · refine ⟨?_, ?_, ?_, ?_⟩
    · intro h
      refine ⟨⟨400, "Recipient email required"⟩, ?_, rfl, ?_⟩ <;>
        simp [sendWeeklyUpdate, providerCalled, hc, h, optStr, emptyStr_isEmpty]
    · intro h
      refine ⟨⟨400, "Recipient email required"⟩, ?_, rfl, ?_⟩ <;>
        simp [sendInvoice, providerCalled, hc, h, optStr, emptyStr_isEmpty]
    · intro h
      refine ⟨⟨400, "Recipient email required"⟩, ?_, rfl, ?_⟩ <;>
        simp [sendQuote, providerCalled, hc, h, optStr, emptyStr_isEmpty]
    · rintro (h | h | h) <;>
        (refine ⟨⟨400, "to, subject, and body are required"⟩, ?_, rfl, ?_⟩ <;>
          simp [sendEmailGeneric, providerCalled, hc, h, optStr, emptyStr_isEmpty])
  · have hc' : emailConfigured cfg = false := by simpa using hc
    refine ⟨?_, ?_, ?_, ?_⟩ <;>
      (intro h
       refine ⟨notConfiguredErr, ?_, rfl, ?_⟩ <;>
        simp [sendWeeklyUpdate, sendInvoice, sendQuote, sendEmailGeneric,
          providerCalled, hc'])

/-- C5 witness: a concrete request with no recipient is rejected with a 400
error by the weekly-update endpoint. -/
theorem C5_missing_recipient_witness :
    ∃ e, sendWeeklyUpdate { resendApiKey := some ("rk") }
        { toAddr := none, template := ⟨"s", "b"⟩ } = .error e ∧ e.status = 400
      ∧ providerCalled (sendWeeklyUpdate { resendApiKey := some ("rk") }
          { toAddr := none, template := ⟨"s", "b"⟩ }) = false :=
  (C5_missing_recipient { resendApiKey := some ("rk") }
    { toAddr := none, template := ⟨"s", "b"⟩ }
    { toAddr := none, template := ⟨"s", "b"⟩ }
    { toAddr := none, template := ⟨"s", "b"⟩ } {}).1 rfl

/-- C6: with the email credential absent every email endpoint returns the
fixed 400 "not configured" error, for every request body, before any other
processing. -/
theorem C6_not_configured :
    ∀ cfg : Config, emailConfigured cfg = false →
      ∀ (r1 r2 r3 : SendReq) (r4 : EmailReq) (r5 : TestReq),
        sendWeeklyUpdate cfg r1 = .error notConfiguredErr
        ∧ sendInvoice cfg r2 = .error notConfiguredErr
        ∧ sendQuote cfg r3 = .error notConfiguredErr
        ∧ sendEmailGeneric cfg r4 = .error notConfiguredErr
        ∧ testEmail cfg r5 = .error notConfiguredErr
        ∧ notConfiguredErr = ⟨400, "Email not configured. Set RESEND_API_KEY."⟩ := by
  intro cfg h r1 r2 r3 r4 r5
  refine ⟨?_, ?_, ?_, ?_, ?_, rfl⟩ <;>
    simp [sendWeeklyUpdate, sendInvoice, sendQuote, sendEmailGeneric, testEmail, h]

/-- C6 witness: the theorem applied to the empty configuration and concrete
requests. -/
theorem C6_not_configured_witness :
    sendWeeklyUpdate {} { toAddr := some ("a@b.c"), template := ⟨"s", "b"⟩ }
        = .error notConfiguredErr
    ∧ testEmail {} {} = .error notConfiguredErr := by
  have h := C6_not_configured {} rfl
    { toAddr := some ("a@b.c"), template := ⟨"s", "b"⟩ }
    { template := ⟨"s", "b"⟩ } { template := ⟨"s", "b"⟩ } {} {}
  exact ⟨h.1, h.2.2.2.2.1⟩

/-! ### Association-list lemmas for the merge-data objects -/

theorem lookupA_setKey_self (l : Data) (k : String) (v : Value) :
    lookupA k (setKey l (k, v)) = some v := by
  induction l with
  | nil => simp [setKey, lookupA]
  | cons p rest ih =>
    obtain ⟨k₁, v₁⟩ := p
    by_cases h : (k₁ == k) = true
    · simp [setKey, h, lookupA]
    · simp only [Bool.not_eq_true] at h
      simp [setKey, h, lookupA, ih]

theorem lookupA_setKey_other (l : Data) {k k' : String} (v' : Value)
    (h : (k' == k) = false) :
    lookupA k (setKey l (k', v')) = lookupA k l := by
  induction l with
  | nil => simp [setKey, lookupA, h]
  | cons p rest ih =>
    obtain ⟨k₁, v₁⟩ := p
    by_cases h1 : (k₁ == k') = true
    · have e : k₁ = k' := by simpa using h1
      subst e
      simp [setKey, lookupA, h]
    · simp only [Bool.not_eq_true] at h1
      simp [setKey, h1, lookupA, ih]

theorem lookupA_none_of_not_mem {k : String} {l : Data} (h : k ∉ l.map Prod.fst) :
    lookupA k l = none := by
  induction l with
  | nil => rfl
  | cons p rest ih =>
    obtain ⟨k₁, v₁⟩ := p
    simp only [List.map_cons, List.mem_cons] at h
    push_neg at h
    have hb : (k₁ == k) = false := beq_eq_false_iff_ne.mpr (fun e => h.1 e.symm)
    simp [lookupA, hb, ih h.2]

theorem lookupA_objMerge : ∀ (ext base : Data) (k : String), (ext.map Prod.fst).Nodup →
    lookupA k (objMerge base ext) = prefOr (lookupA k ext) (lookupA k base) := by
  intro ext
  induction ext with
  | nil => intro base k _; rfl
  | cons p ext' ih =>
    intro base k hnd
    obtain ⟨k₁, v₁⟩ := p
    simp only [List.map_cons, List.nodup_cons] at hnd
    obtain ⟨hk₁, hnd'⟩ := hnd
    show lookupA k (objMerge (setKey base (k₁, v₁)) ext') = _
    rw [ih (setKey base (k₁, v₁)) k hnd']
    by_cases h : (k₁ == k) = true
    · have e : k₁ = k := by simpa using h
      subst e
      have h1 : lookupA k₁ ext' = none := lookupA_none_of_not_mem (by simpa using hk₁)
      rw [h1, lookupA_setKey_self]
      simp [lookupA, prefOr]
    · have hb : (k₁ == k) = false := by simpa using h
      rw [lookupA_setKey_other base v₁ hb]
      simp [lookupA, hb]

/-- C9: on the templated send endpoints the merge data resolves a key to the
caller-supplied value when the caller provides it, and otherwise to the
derived default built from the company settings; the derived keys are
company_name, owner_name, company_phone and company_email, plus payment_link
on the invoice endpoint. -/
theorem C9_merge_data_precedence :
    ∀ (cs : Option CompanySettings) (pl : Option String) (d : Data) (k : String),
      (d.map Prod.fst).Nodup →
      lookupA k (weeklyMergeData cs d) = prefOr (lookupA k d) (lookupA k (baseMergeData cs))
      ∧ lookupA k (invoiceMergeData cs pl d)
          = prefOr (lookupA k d) (lookupA k (invoiceBaseData cs pl))
      ∧ (baseMergeData cs).map Prod.fst
          = ["company_name", "owner_name", "company_phone", "company_email"]
      ∧ (invoiceBaseData cs pl).map Prod.fst
          = ["company_name", "owner_name", "company_phone", "company_email", "payment_link"]
      ∧ lookupA ("payment_link") (invoiceBaseData cs pl) = some (.vStr (strOr pl (""))) := by
  intro cs pl d k hnd
  exact ⟨lookupA_objMerge d (baseMergeData cs) k hnd,
    lookupA_objMerge d (invoiceBaseData cs pl) k hnd, rfl, rfl, rfl⟩

/-- C9 witness: a caller-supplied company_name overrides the derived default,
and an unsupplied derived key falls back to its default. -/
theorem C9_merge_data_precedence_witness :
    lookupA ("company_name") (weeklyMergeData none [("company_name", Value.vStr ("Custom Co"))])
      = some (Value.vStr ("Custom Co"))
    ∧ lookupA ("owner_name") (weeklyMergeData none [("company_name", Value.vStr ("Custom Co"))])
      = some (Value.vStr ("")) := by
  have h1 := C9_merge_data_precedence none none [("company_name", Value.vStr ("Custom Co"))]
    ("company_name") (by simp)
  have h2 := C9_merge_data_precedence none none [("company_name", Value.vStr ("Custom Co"))]
    ("owner_name") (by simp)
  exact ⟨by rw [h1.1]; rfl, by rw [h2.1]; rfl⟩

theorem strOr_of_falsy {o : Option String} (d : String) (h : (optStr o).isEmpty = true) :
    strOr o d = d := by
  cases o with
  | none => rfl
  | some s =>
    have hs : s.isEmpty = true := h
    simp [strOr, hs]

/-- C10: when `/test-email` is called with the `to` field absent or falsy and
the provider is configured, the message goes to the configured
reply-to/sender address (GMAIL_USER, or its built-in default in the Resend
variant) and the endpoint reports success; the Gmail variant likewise falls
back to its sender address. -/
theorem C10_test_email_default :
    ∀ (cfg : Config) (c : GmailConfig) (req : TestReq),
      (emailConfigured cfg = true → (optStr (req.toAddr)).isEmpty = true →
        testEmail cfg req = .ok (sendEmailWithResend cfg (replyToEmail cfg)
            ("Pool Authority - Email Test") testHtml ("Pool Authority"),
          ⟨true, "Test email sent!"⟩)
        ∧ replyToEmail cfg = strOr (cfg.gmailUser) ("jack@poolauthoritycny.com"))
      ∧ (gmailConfigured c = true → (optStr (req.toAddr)).isEmpty = true →
        gmailTestEmail c req
          = .ok (⟨gmailUserStr c, gmailUserStr c, "Pool Authority - Email Test", testHtml⟩,
            ⟨true, "Test email sent!"⟩)) := by
  intro cfg c req
  constructor
  · intro hc hto
    refine ⟨?_, rfl⟩
    simp [testEmail, hc, strOr_of_falsy _ hto]
  · intro hc hto
    simp [gmailTestEmail, hc, strOr_of_falsy _ hto]

/-- C10 witness: with the Resend key set and no `to`, the test email goes to
the default reply-to address and the endpoint reports success. -/
theorem C10_test_email_default_witness :
    testEmail { resendApiKey := some ("rk"), gmailUser := none } { toAddr := none }
      = .ok (sendEmailWithResend { resendApiKey := some ("rk"), gmailUser := none }
          ("jack@poolauthoritycny.com") ("Pool Authority - Email Test") testHtml
          ("Pool Authority"),
        ⟨true, "Test email sent!"⟩) := by
  have h := (C10_test_email_default { resendApiKey := some ("rk"), gmailUser := none }
    { gmailUser := none, gmailAppPassword := none } { toAddr := none }).1 rfl rfl
  rw [h.1]
  rfl

end PoolAuthority
